import Mathlib

/-!
Shallow embedding of the Eve_Region_Planner core (upgrade_calculator.py and
bridge_manager.py) together with proofs settling the frozen claims about it.

Modelling conventions:
* pandas DataFrames become lists of records; a lookup that raises in Python
  (ValueError / KeyError) becomes an `Option` result (`none` = exception).
* The Python dict `system_upgrades` becomes an association list keyed by
  system name (Python dicts keep insertion order; assignment replaces in
  place or appends a new key at the end).
* Machine integers are `Int` (no overflow is relevant at these magnitudes).
* The spatial model's Euclidean-distance computation
  (sqrt((dx)^2+(dy)^2+(dz)^2)/METERS_PER_LY, a float) is abstracted as a
  rational-valued distance oracle `dist` carried by the graph: every claim
  under verification depends only on the produced distance value, never on
  the coordinate arithmetic itself.
-/

namespace EveRP

/-- One row of sovereignty_upgrades.csv: name, signed power delta, signed
workforce delta, category. Negative delta adds capacity, positive consumes. -/
structure Upgrade where
  upgrade_name : String
  power : Int
  workforce : Int
  category : String
deriving DecidableEq, Repr

/-- One row of systems_capacity.csv: base capacities per system. -/
structure SystemRow where
  system_name : String
  power_capacity : Int
  workforce_capacity : Int
deriving DecidableEq, Repr

/-- The state of `UpgradeCalculator`: the two loaded tables plus the mutable
`system_upgrades` dict ({system_name: [upgrade_names]}). -/
structure UpgradeCalculator where
  upgrades_df : List Upgrade
  systems_df : List SystemRow
  system_upgrades : List (String × List String)
deriving DecidableEq, Repr

/-- Python dict read: first binding of the key, if present. -/
def dictGet (d : List (String × List String)) (k : String) : Option (List String) :=
  (d.find? (fun p => p.1 == k)).map (fun p => p.2)

/-- Python dict assignment: replace the binding in place, or append a new
key at the end (Python dicts preserve insertion order). -/
def dictSet (d : List (String × List String)) (k : String) (v : List String) :
    List (String × List String) :=
  if d.any (fun p => p.1 == k) then
    d.map (fun p => if p.1 == k then (k, v) else p)
  else
    d ++ [(k, v)]

/-- `get_upgrade_info`: first row of upgrades_df matching the name;
`none` models the ValueError raised when the upgrade is unknown. -/
def get_upgrade_info (c : UpgradeCalculator) (upgrade_name : String) : Option Upgrade :=
  c.upgrades_df.find? (fun u => u.upgrade_name == upgrade_name)

/-- `get_system_capacity`: (power_capacity, workforce_capacity) of the first
matching row; `none` models the ValueError for an unknown system. -/
def get_system_capacity (c : UpgradeCalculator) (system_name : String) :
    Option (Int × Int) :=
  (c.systems_df.find? (fun s => s.system_name == system_name)).map
    (fun s => (s.power_capacity, s.workforce_capacity))

/-- The dict returned by `calculate_capacity_usage`. -/
structure Usage where
  base_power : Int
  base_workforce : Int
  power_added : Int
  workforce_added : Int
  power_used : Int
  workforce_used : Int
  power_available : Int
  workforce_available : Int
  total_power_capacity : Int
  total_workforce_capacity : Int
  upgrades : List Upgrade
deriving DecidableEq, Repr

/-- The accumulation loop of `calculate_capacity_usage`: walk the installed
names, look each up (a failed lookup raises, i.e. yields `none`) and split
the signed deltas: negative adds `abs` to `added`, otherwise the delta is
added to `used`. The details list collects the resolved rows in order. -/
def capacityLoop (c : UpgradeCalculator) :
    List String → Int → Int → Int → Int → List Upgrade →
    Option (Int × Int × Int × Int × List Upgrade)
  | [], pa, wa, pu, wu, det => some (pa, wa, pu, wu, det)
  | name :: rest, pa, wa, pu, wu, det =>
    match get_upgrade_info c name with
    | none => none
    | some u =>
      capacityLoop c rest
        (if u.power < 0 then pa + |u.power| else pa)
        (if u.workforce < 0 then wa + |u.workforce| else wa)
        (if u.power < 0 then pu else pu + u.power)
        (if u.workforce < 0 then wu else wu + u.workforce)
        (det ++ [u])

/-- `calculate_capacity_usage`. -/
def calculate_capacity_usage (c : UpgradeCalculator) (system_name : String) :
    Option Usage := do
  let caps ← get_system_capacity c system_name
  let installed := (dictGet c.system_upgrades system_name).getD []
  let acc ← capacityLoop c installed 0 0 0 0 []
  let (pa, wa, pu, wu, det) := acc
  some {
    base_power := caps.1
    base_workforce := caps.2
    power_added := pa
    workforce_added := wa
    power_used := pu
    workforce_used := wu
    power_available := caps.1 + pa - pu
    workforce_available := caps.2 + wa - wu
    total_power_capacity := caps.1 + pa
    total_workforce_capacity := caps.2 + wa
    upgrades := det }

/-- `can_add_upgrade`. Quote characters of the Python f-strings are kept,
but the thousands-separator formatting is elided (plain decimal rendering).
`none` models a raised ValueError (unknown upgrade or system). -/
def can_add_upgrade (c : UpgradeCalculator) (system_name upgrade_name : String) :
    Option (Bool × String) := do
  let u ← get_upgrade_info c upgrade_name
  let usage ← calculate_capacity_usage c system_name
  let power_cost := if u.power > 0 then u.power else 0
  let workforce_cost := if u.workforce > 0 then u.workforce else 0
  let power_remaining := usage.power_available - power_cost
  let workforce_remaining := usage.workforce_available - workforce_cost
  if power_remaining < 0 then
    some (false, "Insufficient power: need " ++ toString power_cost ++ ", only "
      ++ toString usage.power_available ++ " available (deficit: "
      ++ toString |power_remaining| ++ ")")
  else if workforce_remaining < 0 then
    some (false, "Insufficient workforce: need " ++ toString workforce_cost ++ ", only "
      ++ toString usage.workforce_available ++ " available (deficit: "
      ++ toString |workforce_remaining| ++ ")")
  else
    let installed := (dictGet c.system_upgrades system_name).getD []
    if upgrade_name ∈ installed then
      some (false, "Upgrade " ++ upgrade_name ++ " is already installed")
    else
      some (true, "Can add: " ++ toString power_remaining ++ " power and "
        ++ toString workforce_remaining ++ " workforce will remain")

/-- The unconditional tail of `add_upgrade`: initialise the dict entry if the
system has none, then append the upgrade name to its list. -/
def installUpgrade (c : UpgradeCalculator) (system_name upgrade_name : String) :
    UpgradeCalculator :=
  let d := if (dictGet c.system_upgrades system_name).isNone then
      dictSet c.system_upgrades system_name []
    else c.system_upgrades
  let d2 := dictSet d system_name ((dictGet d system_name).getD [] ++ [upgrade_name])
  { c with system_upgrades := d2 }

/-- `add_upgrade`: result flag together with the post-call state.
`none` models an exception escaping from `can_add_upgrade`. -/
def add_upgrade (c : UpgradeCalculator) (system_name upgrade_name : String)
    (force : Bool) : Option (Bool × UpgradeCalculator) :=
  if force then some (true, installUpgrade c system_name upgrade_name)
  else
    match can_add_upgrade c system_name upgrade_name with
    | none => none
    | some (can_add, _) =>
      if can_add then some (true, installUpgrade c system_name upgrade_name)
      else some (false, c)

/-- `remove_upgrade`: removes the first matching entry (Python list.remove). -/
def remove_upgrade (c : UpgradeCalculator) (system_name upgrade_name : String) :
    Bool × UpgradeCalculator :=
  match dictGet c.system_upgrades system_name with
  | none => (false, c)
  | some installed =>
    if upgrade_name ∈ installed then
      let d := dictSet c.system_upgrades system_name (installed.erase upgrade_name)
      (true, { c with system_upgrades := d })
    else (false, c)

/-- `clear_system_upgrades`: unconditional dict assignment to []. -/
def clear_system_upgrades (c : UpgradeCalculator) (system_name : String) :
    UpgradeCalculator :=
  { c with system_upgrades := dictSet c.system_upgrades system_name [] }

/-- Result of `apply_preset`: a normal return of the added list, or the
ValueError raised for an unknown preset name. -/
inductive PresetResult where
  | ok (added : List String)
  | unknownPreset (msg : String)
deriving DecidableEq, Repr

/-- The `for level in [3, 2, 1]` fallback loop of `apply_preset`: try
`base ++ " " ++ level` at each level, stop at the first successful add.
`none` models an exception escaping from `add_upgrade`. -/
def tryLevels (system_name base : String) :
    UpgradeCalculator → List Nat → Option (List String × UpgradeCalculator)
  | c, [] => some ([], c)
  | c, level :: rest =>
    let name := base ++ " " ++ toString level
    match add_upgrade c system_name name false with
    | none => none
    | some (true, c2) => some ([name], c2)
    | some (false, c2) => tryLevels system_name base c2 rest

/-- `apply_preset`: clears the system's ledger first, then dispatches on the
preset name; an unknown preset raises only after the clear, so the cleared
state is what the caller observes. The result pairs the outcome with the
post-call state. -/
def apply_preset (c : UpgradeCalculator) (system_name preset : String) :
    Option (PresetResult × UpgradeCalculator) :=
  let c0 := clear_system_upgrades c system_name
  if preset == "max_mining" then
    match tryLevels system_name "Prospecting Array" c0 [3, 2, 1] with
    | none => none
    | some (added, c2) => some (.ok added, c2)
  else if preset == "max_ratting" then
    match tryLevels system_name "Major Threat" c0 [3, 2, 1] with
    | none => none
    | some (a1, c1) =>
      match tryLevels system_name "Minor Threat" c1 [3, 2, 1] with
      | none => none
      | some (a2, c2) => some (.ok (a1 ++ a2), c2)
  else if preset == "balanced" then
    match add_upgrade c0 system_name "Prospecting Array 1" false with
    | none => none
    | some (ok1, c1) =>
      match add_upgrade c1 system_name "Major Threat 1" false with
      | none => none
      | some (ok2, c2) =>
        some (.ok ((if ok1 then ["Prospecting Array 1"] else []) ++
                   (if ok2 then ["Major Threat 1"] else [])), c2)
  else if preset == "empty" then
    some (.ok [], c0)
  else
    some (.unknownPreset ("Unknown preset: " ++ preset ++
      ". Use max_mining, max_ratting, balanced, or empty"), c0)

/-! ## Bridge manager embedding (bridge_manager.py)

The network snapshot: node enumeration order (`nx.Graph` preserves insertion
order), stargate adjacency, the spatial-model distance oracle (see the header
comment) and the constellation tag per system. -/

structure BridgeGraph where
  nodes : List String
  adj : String → List String
  dist : String → String → ℚ
  constellation : String → String

/-- `MAX_BRIDGE_RANGE_LY = 5.0`. -/
def MAX_BRIDGE_RANGE_LY : ℚ := 5

/-- `calculate_distance_ly`: the spatial-model distance between two systems. -/
def calculate_distance_ly (g : BridgeGraph) (s1 s2 : String) : ℚ :=
  g.dist s1 s2

/-- `can_bridge_connect`: distance within the 5 LY limit, plus the distance. -/
def can_bridge_connect (g : BridgeGraph) (s1 s2 : String) : Bool × ℚ :=
  let distance := calculate_distance_ly g s1 s2
  (decide (distance ≤ MAX_BRIDGE_RANGE_LY), distance)

/-- `nx.shortest_path_length` on the stargate graph: breadth-first search by
layers; `none` models the NetworkXNoPath exception. The fuel bound
`nodes.length + 1` only forces termination; BFS always stops earlier (an
empty next frontier) on any graph whose adjacency stays inside `nodes`. -/
def bfsLayers (g : BridgeGraph) (t : String) :
    ℕ → List String → List String → ℕ → Option ℕ
  | 0, _, _, _ => none
  | fuel + 1, visited, frontier, d =>
    if frontier.contains t then some d
    else
      let next := ((frontier.flatMap g.adj).filter
        (fun v => !(visited.contains v))).eraseDups
      if next.isEmpty then none
      else bfsLayers g t fuel (visited ++ next) next (d + 1)

/-- `nx.shortest_path_length(graph, s, t)` (unweighted hop count). -/
def shortest_path_length (g : BridgeGraph) (s t : String) : Option ℕ :=
  bfsLayers g t (g.nodes.length + 1) [s] [s] 0

/-- `get_valid_connections`: all other systems within bridge range, excluding
the given set, sorted ascending by distance. The memoisation cache of the
Python code is semantically transparent (coordinates are immutable within a
session) and is not modelled. Python's `list.sort` is a stable ascending
sort; `mergeSort` is its stable counterpart here. -/
def get_valid_connections (g : BridgeGraph) (system : String)
    (exclude_systems : List String) : List (String × ℚ) :=
  let valid := g.nodes.filterMap (fun other =>
    if other == system || exclude_systems.contains other then none
    else
      let cd := can_bridge_connect g system other
      if cd.1 then some (other, cd.2) else none)
  valid.mergeSort (fun a b => a.2 ≤ b.2)

/-- A committed bridge record as stored in `self.bridges`. -/
structure Bridge where
  from_ : String
  to_ : String
  distance_ly : ℚ
  active : Bool
deriving DecidableEq, Repr

/-- The state of `BridgeManager`: the snapshot plus the bridge list. -/
structure BridgeManager where
  graph : BridgeGraph
  bridges : List Bridge

/-- `has_bridge`: a bridge between the two systems in either orientation. -/
def has_bridge (m : BridgeManager) (s1 s2 : String) : Bool :=
  m.bridges.any (fun b =>
    (b.from_ == s1 && b.to_ == s2) || (b.from_ == s2 && b.to_ == s1))

/-- `get_used_systems`: every system appearing as a bridge endpoint (a Python
set used only for membership tests; a duplicate-tolerant list models it). -/
def get_used_systems (m : BridgeManager) : List String :=
  m.bridges.flatMap (fun b => [b.from_, b.to_])

/-- `round(x, 2)`: round to 2 decimal places. Python rounds exact .005 ties
to even; `round` rounds them up; every concrete value used below is away
from a tie, where the two conventions agree. -/
def round2 (q : ℚ) : ℚ := (round (q * 100) : ℤ) / 100

/-- `add_bridge`: duplicate check, endpoint-exclusivity check, optional range
validation, then append the record with the distance rounded to 2 decimals.
The Python code computes the distance inside the `validate` branch and
recomputes it in the `else` branch; both produce `can_bridge_connect`'s
distance, computed once here. The float formatting inside the human-readable
messages (":.2f") is elided. -/
def add_bridge (m : BridgeManager) (system1 system2 : String)
    (active validate : Bool) : (Bool × String) × BridgeManager :=
  if has_bridge m system1 system2 then
    ((false, "Bridge already exists between " ++ system1 ++ " and " ++ system2), m)
  else if (get_used_systems m).contains system1 then
    ((false, "System " ++ system1 ++ " already has a bridge"), m)
  else if (get_used_systems m).contains system2 then
    ((false, "System " ++ system2 ++ " already has a bridge"), m)
  else
    let cd := can_bridge_connect m.graph system1 system2
    if validate && !cd.1 then
      ((false, "Systems too far apart"), m)
    else
      let bridge : Bridge := ⟨system1, system2, round2 cd.2, active⟩
      ((true, "Bridge added: " ++ system1 ++ " and " ++ system2),
        { m with bridges := m.bridges ++ [bridge] })

/-- The fields of the dict returned by `calculate_bridge_value` in the valid
case. `current_jumps`/`jump_savings` live in `WithTop ℤ`, whose top element
models the Python float-infinity sentinel (`float('inf')`). -/
structure ValidValue where
  distance_ly : ℚ
  current_jumps : WithTop ℤ
  jump_savings : WithTop ℤ
  cross_constellation : Bool
  improved_paths : ℕ
  from_constellation : String
  to_constellation : String
deriving DecidableEq

/-- `calculate_bridge_value` returns dicts of two distinct shapes: the
out-of-range rejection (distance and reason only, no jump metrics) and the
full evaluation. -/
inductive BridgeValue where
  | invalid (distance_ly : ℚ) (reason : String)
  | valid (v : ValidValue)
deriving DecidableEq

/-- The sampled improved-paths count of `calculate_bridge_value`: over the
first 20 systems, ordered pairs with `sys_a < sys_b` (Python string order)
whose stargate distance strictly exceeds the best routing through the
prospective bridge in either orientation; any no-path exception inside the
`try` block skips the pair. -/
def improvedPathsCount (g : BridgeGraph) (system1 system2 : String) : ℕ :=
  let sample_systems := g.nodes.take 20
  (sample_systems.flatMap (fun a => sample_systems.map (fun b => (a, b)))).countP
    (fun p =>
      if p.1 < p.2 then
        match shortest_path_length g p.1 p.2, shortest_path_length g p.1 system1,
              shortest_path_length g p.2 system2, shortest_path_length g p.1 system2,
              shortest_path_length g p.2 system1 with
        | some current_dist, some d1, some d2, some d1r, some d2r =>
          decide (min (d1 + 1 + d2) (d1r + 1 + d2r) < current_dist)
        | _, _, _, _, _ => false
      else false)

/-- `calculate_bridge_value`. In the valid case:
`current_jumps` is the stargate shortest-path length or the infinity
sentinel, and `jump_savings = max(0, current_jumps - 1)` (finite arithmetic
on a finite path length; `inf - 1 = inf` and `max(0, inf) = inf` on the
sentinel, i.e. top stays top). -/
def calculate_bridge_value (g : BridgeGraph) (system1 system2 : String) :
    BridgeValue :=
  let cd := can_bridge_connect g system1 system2
  if !cd.1 then
    .invalid cd.2 "Distance exceeds 5 LY limit"
  else
    let cj := shortest_path_length g system1 system2
    let current_jumps : WithTop ℤ := cj.elim ⊤ (fun n => ((n : ℤ) : WithTop ℤ))
    let jump_savings : WithTop ℤ :=
      cj.elim ⊤ (fun n => ((max 0 ((n : ℤ) - 1) : ℤ) : WithTop ℤ))
    let const1 := g.constellation system1
    let const2 := g.constellation system2
    .valid {
      distance_ly := cd.2
      current_jumps := current_jumps
      jump_savings := jump_savings
      cross_constellation := const1 != const2
      improved_paths := improvedPathsCount g system1 system2
      from_constellation := const1
      to_constellation := const2 }

/-! ## Greedy optimizer (optimize_bridge_placement_greedy)

Scores live in `WithTop ℚ`: rationals for the finite float scores (the
decimal literals 0.4, 0.2, 10 of the balanced strategy become exact
rationals) with a top element for the infinity sentinel that the
jump-savings score inherits from an unreachable pair. The four `prioritize`
branches become a score function on the evaluation result; the greedy loop
is parametric in it, so every claim proved about the loop holds for all
four strategies at once. -/

/-- `prioritize == 'jump_savings'`: score = jump_savings (top maps to top). -/
def scoreJumpSavings (v : ValidValue) : WithTop ℚ :=
  WithTop.map (fun n : ℤ => (n : ℚ)) v.jump_savings

/-- `prioritize == 'coverage'`: score = improved_paths. -/
def scoreCoverage (v : ValidValue) : WithTop ℚ :=
  ((v.improved_paths : ℚ) : WithTop ℚ)

/-- `prioritize == 'cross_constellation'`: improved_paths doubled across
constellations. -/
def scoreCrossConstellation (v : ValidValue) : WithTop ℚ :=
  ((v.improved_paths * (if v.cross_constellation then 2 else 1) : ℚ) : WithTop ℚ)

/-- The `balanced` branch: 0.4 * jump_savings + 0.4 * improved_paths +
0.2 * (10 or 0); infinity propagates through the float arithmetic exactly
as top does through `WithTop ℚ` (the multiplier 2/5 is nonzero). -/
def scoreBalanced (v : ValidValue) : WithTop ℚ :=
  WithTop.map (fun n : ℤ => (n : ℚ)) v.jump_savings * ((2 / 5 : ℚ) : WithTop ℚ) +
    ((v.improved_paths * (2 / 5 : ℚ) : ℚ) : WithTop ℚ) +
    (((if v.cross_constellation then (10 : ℚ) else 0) * (1 / 5 : ℚ) : ℚ) : WithTop ℚ)

/-- One entry of the optimizer's result list (the `best_bridge` dict). -/
structure PlacedBridge where
  from_ : String
  to_ : String
  distance_ly : ℚ
  score : WithTop ℚ
  value : ValidValue
deriving DecidableEq

/-- One iteration's candidate enumeration, flattening the two nested loops:
unused first endpoints in node order, then their range candidates (excluding
used systems) in `get_valid_connections` order; invalid evaluations are
skipped; each surviving pair carries its evaluation and score. -/
def candidateBridges (g : BridgeGraph) (strategy : ValidValue → WithTop ℚ)
    (used : List String) : List PlacedBridge :=
  g.nodes.flatMap (fun sys1 =>
    if used.contains sys1 then []
    else
      (get_valid_connections g sys1 used).filterMap (fun p =>
        if used.contains p.1 then none
        else
          match calculate_bridge_value g sys1 p.1 with
          | .invalid _ _ => none
          | .valid v => some ⟨sys1, p.1, p.2, strategy v, v⟩))

/-- The running maximum of the nested loops: `best_bridge`/`best_score`,
updated by the strict comparison `score > best_score` (first seen wins a
tie). -/
def selectBest : Option PlacedBridge → WithTop ℚ → List PlacedBridge →
    Option PlacedBridge
  | best, _, [] => best
  | best, best_score, c :: rest =>
    if c.score > best_score then selectBest (some c) c.score rest
    else selectBest best best_score rest

/-- The `for _ in range(max_bridges)` loop: pick the best candidate starting
from `best_score = -1`; append it and mark both endpoints used, or stop
early when no candidate was selected. -/
def greedyGo (g : BridgeGraph) (strategy : ValidValue → WithTop ℚ) :
    ℕ → List PlacedBridge → List String → List PlacedBridge
  | 0, placed, _ => placed
  | fuel + 1, placed, used =>
    match selectBest none ((-1 : ℚ) : WithTop ℚ) (candidateBridges g strategy used) with
    | some b => greedyGo g strategy fuel (placed ++ [b]) (used ++ [b.from_, b.to_])
    | none => placed

/-- `optimize_bridge_placement_greedy`, parametric in the strategy's score
function (see above). -/
def optimize_bridge_placement_greedy (g : BridgeGraph) (max_bridges : ℕ)
    (strategy : ValidValue → WithTop ℚ) : List PlacedBridge :=
  greedyGo g strategy max_bridges [] []

/-! ## Sampled betweenness centrality (for calculate_system_metrics)

`calculate_system_metrics` calls `nx.betweenness_centrality(self.graph, k=10)`
with no `seed` argument. Modelled from the networkx contract: with a sample
size `k`, betweenness sums the source dependencies
`delta_s(v) = sum over t of sigma_st(v) / sigma_st` over `k` source nodes
drawn from the global random number generator (seed None), then rescales by
a fixed positive factor (the normalisation constant times n/k). The random
source sample is therefore an explicit input of the model, and the positive
rescaling is omitted since it cannot make two unequal sums equal. -/

/-- Number of shortest stargate paths from `s` to `v`, by recursion on the
predecessor layers of the BFS tree (`fuel` only bounds the recursion depth;
`nodes.length` exceeds every finite hop distance). -/
def numShortestPaths (g : BridgeGraph) : ℕ → String → String → ℕ
  | 0, s, v => if v == s then 1 else 0
  | fuel + 1, s, v =>
    if v == s then 1
    else
      match shortest_path_length g s v with
      | none => 0
      | some dv =>
        ((g.adj v).map (fun u =>
          if shortest_path_length g s u == some (dv - 1) then
            numShortestPaths g fuel s u
          else 0)).sum

/-- `sigma(s, v)`: shortest-path count with enough fuel. -/
def sigma (g : BridgeGraph) (s v : String) : ℕ :=
  numShortestPaths g g.nodes.length s v

/-- The pair dependency `sigma_st(v) / sigma_st`: the fraction of shortest
`s`-`t` paths passing through the interior node `v` (zero when `v` is not on
any, or when either leg is unreachable). -/
def pairDependency (g : BridgeGraph) (s t v : String) : ℚ :=
  match shortest_path_length g s v, shortest_path_length g v t,
        shortest_path_length g s t with
  | some a, some b, some c =>
    if a + b = c then ((sigma g s v * sigma g v t : ℕ) : ℚ) / ((sigma g s t : ℕ) : ℚ)
    else 0
  | _, _, _ => 0

/-- The source dependency `delta_s(v)`: summed over targets other than the
source and the interior node. -/
def dependency (g : BridgeGraph) (s v : String) : ℚ :=
  ((g.nodes.filter (fun t => t != s && t != v)).map
    (fun t => pairDependency g s t v)).sum

/-- Sampled betweenness of `v` (up to the fixed positive rescaling): the sum
of `delta_s(v)` over the sampled sources. -/
def betweennessSampled (g : BridgeGraph) (sample : List String) (v : String) : ℚ :=
  ((sample.filter (fun s => s != v)).map (fun s => dependency g s v)).sum

/-! ## Spec-side accounting formulas (Capacity Ledger, section 4.6 / claim C1)

These two definitions follow the SPEC's words — `added = sum(|delta| for
installed upgrades with delta < 0)`, `used = sum(delta for installed
upgrades with delta > 0)` — and are compared against the embedded
`calculate_capacity_usage`. -/

/-- Spec formula: capacity added by the installed upgrades whose delta is
negative (summing absolute values). -/
def specAdded (l : List Upgrade) (delta : Upgrade → Int) : Int :=
  ((l.filter (fun u => delta u < 0)).map (fun u => |delta u|)).sum

/-- Spec formula: capacity consumed by the installed upgrades whose delta is
positive. -/
def specUsed (l : List Upgrade) (delta : Upgrade → Int) : Int :=
  ((l.filter (fun u => 0 < delta u)).map delta).sum

/-- Resolve a list of upgrade names through the catalog (all-or-nothing). -/
def resolveAll (c : UpgradeCalculator) : List String → Option (List Upgrade)
  | [] => some []
  | n :: rest =>
    match get_upgrade_info c n with
    | none => none
    | some u => (resolveAll c rest).map (fun us => u :: us)

/-- All endpoints of a placed-bridge list, in placement order. -/
def endpointsOf (l : List PlacedBridge) : List String :=
  l.flatMap (fun b => [b.from_, b.to_])

/-! ## Concrete instances used by the examples, witnesses and counterexamples -/

/-- Catalog and system table realising the spec's capacity example: base
power 2000, one upgrade consuming 500 power and one adding 300. -/
def exCalc : UpgradeCalculator := {
  upgrades_df := [⟨"Consumer", 500, 100, "Ratting"⟩, ⟨"Generator", -300, -50, "Strategic"⟩]
  systems_df := [⟨"Sys", 2000, 1000⟩]
  system_upgrades := [("Sys", ["Consumer", "Generator"])] }

/-- The usage report of `exCalc`'s system, as the spec example states it:
added 300, used 500, total 2300, available 1800 on power. -/
def exUsage : Usage := {
  base_power := 2000, base_workforce := 1000
  power_added := 300, workforce_added := 50
  power_used := 500, workforce_used := 100
  power_available := 1800, workforce_available := 950
  total_power_capacity := 2300, total_workforce_capacity := 1050
  upgrades := [⟨"Consumer", 500, 100, "Ratting"⟩, ⟨"Generator", -300, -50, "Strategic"⟩] }

/-- A calculator with room for one more upgrade (for the C2 witness). -/
def exCalc2 : UpgradeCalculator := {
  upgrades_df := [⟨"Big", 5000, 0, "Ratting"⟩, ⟨"Consumer", 500, 100, "Ratting"⟩]
  systems_df := [⟨"Sys", 2000, 1000⟩]
  system_upgrades := [] }

/-- Spec example for the evaluator: systems A and B at spatial distance 3.2
(within the 5-unit range) whose stargate path A-V-W-X-B has length 4. -/
def exGraph4 : BridgeGraph := {
  nodes := ["A", "V", "W", "X", "B"]
  adj := fun s =>
    if s == "A" then ["V"] else if s == "V" then ["A", "W"]
    else if s == "W" then ["V", "X"] else if s == "X" then ["W", "B"]
    else if s == "B" then ["X"] else []
  dist := fun s t =>
    if s == t then 0
    else if (s == "A" && t == "B") || (s == "B" && t == "A") then mkRat 16 5
    else 1
  constellation := fun _ => "C1x" }

/-- The evaluation `calculate_bridge_value exGraph4 "A" "B"` produces:
valid, distance 3.2, current jumps 4, jump savings 3. -/
def exValue4 : ValidValue := {
  distance_ly := mkRat 16 5
  current_jumps := ((4 : ℤ) : WithTop ℤ)
  jump_savings := ((3 : ℤ) : WithTop ℤ)
  cross_constellation := false
  improved_paths := 3
  from_constellation := "C1x", to_constellation := "C1x" }

/-- Two systems 6 units apart (out of bridge range). -/
def exGraphFar : BridgeGraph := {
  nodes := ["A", "B"]
  adj := fun _ => []
  dist := fun s t => if s == t then 0 else 6
  constellation := fun _ => "K" }

/-- Two systems within range (distance 3) with no stargate path at all. -/
def exGraph9 : BridgeGraph := {
  nodes := ["A", "B"]
  adj := fun _ => []
  dist := fun s t => if s == t then 0 else 3
  constellation := fun _ => "K" }

/-- The evaluation of the unreachable-but-in-range pair of `exGraph9`. -/
def exValue9 : ValidValue := {
  distance_ly := 3
  current_jumps := ⊤
  jump_savings := ⊤
  cross_constellation := false
  improved_paths := 0
  from_constellation := "K", to_constellation := "K" }

/-- Eight systems forming exactly four disjoint in-range pairs
(A-B, C-D, E-F, G-H at distance 3; every other pair at distance 10). -/
def exGraph6 : BridgeGraph := {
  nodes := ["A", "B", "C", "D", "E", "F", "G", "H"]
  adj := fun _ => []
  dist := fun s t =>
    if s == t then 0
    else if (s == "A" && t == "B") || (s == "B" && t == "A") then 3
    else if (s == "C" && t == "D") || (s == "D" && t == "C") then 3
    else if (s == "E" && t == "F") || (s == "F" && t == "E") then 3
    else if (s == "G" && t == "H") || (s == "H" && t == "G") then 3
    else 10
  constellation := fun _ => "K" }

/-- A manager whose two systems are 19/3 = 6.33... units apart (for the
stored-distance counterexample: `round(19/3, 2) = 6.33`). -/
def mgr7 : BridgeManager := {
  graph := {
    nodes := ["A", "B"]
    adj := fun _ => []
    dist := fun s t => if s == t then 0 else mkRat 19 3
    constellation := fun _ => "K" }
  bridges := [] }

/-- A manager with one committed bridge using systems A and B (for the
add_bridge exclusivity witness). -/
def mgrUsed : BridgeManager := {
  graph := exGraph6
  bridges := [⟨"A", "B", 3, true⟩] }

/-- A fresh manager over two in-range systems (distance 3). -/
def mgrInRange : BridgeManager := { graph := exGraph9, bridges := [] }

/-- An 11-node graph (so that a 10-element betweenness source sample is a
proper random subset): a stargate path A-B-C-D plus seven isolated systems. -/
def pathGraph : BridgeGraph := {
  nodes := ["A", "B", "C", "D", "E", "F", "G", "H", "I", "J", "K"]
  adj := fun s =>
    if s == "A" then ["B"] else if s == "B" then ["A", "C"]
    else if s == "C" then ["B", "D"] else if s == "D" then ["C"]
    else []
  dist := fun _ _ => 0
  constellation := fun _ => "K" }

/-- One admissible 10-element source sample of `pathGraph` (all but A). -/
def sampleNoA : List String := ["B", "C", "D", "E", "F", "G", "H", "I", "J", "K"]

/-- Another admissible 10-element source sample (all but D). -/
def sampleNoD : List String := ["A", "B", "C", "E", "F", "G", "H", "I", "J", "K"]

/-- A placed-bridge evaluation record used by the tie-breaking witness. -/
def vPlain : ValidValue := {
  distance_ly := 3, current_jumps := ((1 : ℤ) : WithTop ℤ)
  jump_savings := ((0 : ℤ) : WithTop ℤ), cross_constellation := false
  improved_paths := 0, from_constellation := "K", to_constellation := "K" }

/-- Tie-breaking witness data: a low-scoring candidate seen first. -/
def pbLow : PlacedBridge := ⟨"A", "B", 3, ((1 : ℚ) : WithTop ℚ), vPlain⟩

/-- Tie-breaking witness data: the first candidate attaining the maximum. -/
def pbHigh : PlacedBridge := ⟨"C", "D", 3, ((7 : ℚ) : WithTop ℚ), vPlain⟩

/-- Tie-breaking witness data: a later candidate tying the maximum. -/
def pbTie : PlacedBridge := ⟨"E", "F", 3, ((7 : ℚ) : WithTop ℚ), vPlain⟩

/-! ## Lemmas and claim theorems -/

set_option maxRecDepth 4000000

theorem find?_map_replace (k : String) (v : List String) :
    ∀ d : List (String × List String), d.any (fun p => p.1 == k) = true →
      (d.map (fun p => if p.1 == k then (k, v) else p)).find?
        (fun p => p.1 == k) = some (k, v) := by
  intro d
  induction d with
  | nil => intro h; simp at h
  | cons p rest ih =>
    intro h
    by_cases hp : (p.1 == k) = true
    · rw [List.map_cons, if_pos hp, List.find?_cons_of_pos _ (by simp)]
    · have hp' : (p.1 == k) = false := Bool.eq_false_iff.mpr hp
      rw [List.map_cons, if_neg hp, List.find?_cons, hp']
      apply ih
      simp only [List.any_cons, Bool.or_eq_true] at h
      tauto

theorem find?_append_new (k : String) (v : List String) :
    ∀ d : List (String × List String), d.any (fun p => p.1 == k) = false →
      (d ++ [(k, v)]).find? (fun p => p.1 == k) = some (k, v) := by
  intro d
  induction d with
  | nil => intro _; rw [List.nil_append, List.find?_cons_of_pos _ (by simp)]
  | cons p rest ih =>
    intro h
    simp only [List.any_cons, Bool.or_eq_false_iff] at h
    rw [List.cons_append, List.find?_cons_of_neg _ (by simp [h.1])]
    exact ih h.2

/-- Reading back the key just assigned yields the assigned value. -/
theorem dictGet_dictSet (d : List (String × List String)) (k : String)
    (v : List String) : dictGet (dictSet d k v) k = some v := by
  unfold dictSet
  by_cases h : d.any (fun p => p.1 == k) = true
  · rw [if_pos h]
    unfold dictGet
    rw [find?_map_replace k v d h]
    rfl
  · rw [if_neg h]
    unfold dictGet
    rw [find?_append_new k v d (Bool.eq_false_iff.mpr h)]
    rfl

/-- What one pass of the `calculate_capacity_usage` loop computes: each
installed name resolves through the catalog, the accumulators gain exactly
the spec's sign-split sums, and the details list gains the resolved rows. -/
theorem capacityLoop_spec (c : UpgradeCalculator) :
    ∀ (names : List String) (pa wa pu wu : Int) (det : List Upgrade)
      (out : Int × Int × Int × Int × List Upgrade),
      capacityLoop c names pa wa pu wu det = some out →
      ∃ us : List Upgrade,
        resolveAll c names = some us ∧
        out.1 = pa + specAdded us (fun u => u.power) ∧
        out.2.1 = wa + specAdded us (fun u => u.workforce) ∧
        out.2.2.1 = pu + specUsed us (fun u => u.power) ∧
        out.2.2.2.1 = wu + specUsed us (fun u => u.workforce) ∧
        out.2.2.2.2 = det ++ us := by
  intro names
  induction names with
  | nil =>
    intro pa wa pu wu det out h
    simp only [capacityLoop, Option.some_inj] at h
    subst h
    exact ⟨[], rfl, by simp [specAdded], by simp [specAdded],
      by simp [specUsed], by simp [specUsed], by simp⟩
  | cons name rest ih =>
    intro pa wa pu wu det out h
    simp only [capacityLoop] at h
    cases hu : get_upgrade_info c name with
    | none => rw [hu] at h; cases h
    | some u =>
      rw [hu] at h
      obtain ⟨us, hus, h1, h2, h3, h4, h5⟩ := ih _ _ _ _ _ _ h
      refine ⟨u :: us, ?_, ?_, ?_, ?_, ?_, ?_⟩
      · simp [resolveAll, hu, hus]
      · rw [h1]; by_cases hp : u.power < 0 <;>
          simp [specAdded, List.filter_cons, hp] <;> ring
      · rw [h2]; by_cases hp : u.workforce < 0 <;>
          simp [specAdded, List.filter_cons, hp] <;> ring
      · rw [h3]
        rcases lt_trichotomy u.power 0 with hp | hp | hp
        · simp [specUsed, List.filter_cons, hp, not_lt.mpr (le_of_lt hp)]
        · simp [specUsed, List.filter_cons, hp, not_lt.mpr (le_of_eq hp.symm), hp]
        · simp [specUsed, List.filter_cons, hp, not_lt.mpr (le_of_lt hp)]; ring
      · rw [h4]
        rcases lt_trichotomy u.workforce 0 with hp | hp | hp
        · simp [specUsed, List.filter_cons, hp, not_lt.mpr (le_of_lt hp)]
        · simp [specUsed, List.filter_cons, hp, not_lt.mpr (le_of_eq hp.symm), hp]
        · simp [specUsed, List.filter_cons, hp, not_lt.mpr (le_of_lt hp)]; ring
      · rw [h5]; simp

/-- C1: for every known system and any ledger state, the usage report of
`calculate_capacity_usage` satisfies, per resource, added = the sum of
|delta| over installed upgrades with delta < 0, used = the sum of delta over
installed upgrades with delta > 0, total = base + added and
available = base + added - used, with the itemised list being exactly the
installed names resolved through the catalog; and on the spec's concrete
example (base power 2000, deltas +500 and -300) it reports power_added=300,
power_used=500, total_power_capacity=2300, power_available=1800. -/
theorem C1_capacity_usage (c : UpgradeCalculator) (s : String) (u : Usage)
    (h : calculate_capacity_usage c s = some u) :
    (resolveAll c ((dictGet c.system_upgrades s).getD []) = some u.upgrades ∧
      u.power_added = specAdded u.upgrades (fun g => g.power) ∧
      u.power_used = specUsed u.upgrades (fun g => g.power) ∧
      u.workforce_added = specAdded u.upgrades (fun g => g.workforce) ∧
      u.workforce_used = specUsed u.upgrades (fun g => g.workforce) ∧
      u.total_power_capacity = u.base_power + u.power_added ∧
      u.total_workforce_capacity = u.base_workforce + u.workforce_added ∧
      u.power_available = u.base_power + u.power_added - u.power_used ∧
      u.workforce_available = u.base_workforce + u.workforce_added - u.workforce_used) ∧
    (calculate_capacity_usage exCalc "Sys" = some exUsage ∧
      exUsage.power_added = 300 ∧ exUsage.power_used = 500 ∧
      exUsage.total_power_capacity = 2300 ∧ exUsage.power_available = 1800) := by
  constructor
  · unfold calculate_capacity_usage at h
    cases hcap : get_system_capacity c s with
    | none => rw [hcap] at h; cases h
    | some caps =>
      rw [hcap] at h
      simp only [Option.bind_eq_bind, Option.some_bind] at h
      cases hacc : capacityLoop c ((dictGet c.system_upgrades s).getD []) 0 0 0 0 [] with
      | none => rw [hacc] at h; cases h
      | some acc =>
        rw [hacc] at h
        simp only [Option.bind_eq_bind, Option.some_bind, Option.some_inj] at h
        obtain ⟨pa, wa, pu, wu, det⟩ := acc
        obtain ⟨us, hus, h1, h2, h3, h4, h5⟩ := capacityLoop_spec c _ _ _ _ _ _ _ hacc
        simp only [List.nil_append] at h1 h2 h3 h4 h5
        subst h
        simp only []
        subst h5
        exact ⟨by rw [hus], by rw [h1]; ring, by rw [h3]; ring, by rw [h2]; ring,
          by rw [h4]; ring, by trivial, by trivial, by trivial, by trivial⟩
  · exact ⟨by decide, rfl, rfl, rfl, rfl⟩

/-- Witness for C1 at the spec's concrete example. -/
theorem C1_capacity_usage_witness :
    (resolveAll exCalc ((dictGet exCalc.system_upgrades "Sys").getD []) =
        some exUsage.upgrades ∧
      exUsage.power_added = specAdded exUsage.upgrades (fun g => g.power) ∧
      exUsage.power_used = specUsed exUsage.upgrades (fun g => g.power) ∧
      exUsage.workforce_added = specAdded exUsage.upgrades (fun g => g.workforce) ∧
      exUsage.workforce_used = specUsed exUsage.upgrades (fun g => g.workforce) ∧
      exUsage.total_power_capacity = exUsage.base_power + exUsage.power_added ∧
      exUsage.total_workforce_capacity = exUsage.base_workforce + exUsage.workforce_added ∧
      exUsage.power_available = exUsage.base_power + exUsage.power_added - exUsage.power_used ∧
      exUsage.workforce_available =
        exUsage.base_workforce + exUsage.workforce_added - exUsage.workforce_used) ∧
    (calculate_capacity_usage exCalc "Sys" = some exUsage ∧
      exUsage.power_added = 300 ∧ exUsage.power_used = 500 ∧
      exUsage.total_power_capacity = 2300 ∧ exUsage.power_available = 1800) :=
  C1_capacity_usage exCalc "Sys" exUsage (by decide)

/-- C2: for a known system and upgrade, `can_add_upgrade` accepts exactly
when the hypothetical post-add available (charging only positive deltas) is
non-negative for both resources and the upgrade is not already installed;
when power is insufficient the reject reason is the power message (power is
checked before workforce); and non-forced `add_upgrade` returns exactly
`can_add_upgrade`'s verdict, mutating the ledger on acceptance and leaving
the state untouched on rejection. -/
theorem C2_can_add_gates_add (c : UpgradeCalculator) (s un : String)
    (up : Upgrade) (usage : Usage) (b : Bool) (r : String)
    (hu : get_upgrade_info c un = some up)
    (husage : calculate_capacity_usage c s = some usage)
    (h : can_add_upgrade c s un = some (b, r)) :
    (b = true ↔
      (0 ≤ usage.power_available - (if up.power > 0 then up.power else 0) ∧
       0 ≤ usage.workforce_available - (if up.workforce > 0 then up.workforce else 0) ∧
       un ∉ (dictGet c.system_upgrades s).getD [])) ∧
    (usage.power_available - (if up.power > 0 then up.power else 0) < 0 →
      r = "Insufficient power: need " ++ toString (if up.power > 0 then up.power else 0)
        ++ ", only " ++ toString usage.power_available ++ " available (deficit: "
        ++ toString |usage.power_available - (if up.power > 0 then up.power else 0)| ++ ")") ∧
    add_upgrade c s un false = some (b, if b then installUpgrade c s un else c) := by
  have hcan := h
  have hadd : add_upgrade c s un false =
      some (b, if b then installUpgrade c s un else c) := by
    simp only [add_upgrade, Bool.false_eq_true, if_false, hcan]
    cases b
    · simp
    · simp
  unfold can_add_upgrade at h
  rw [hu, husage] at h
  simp only [Option.bind_eq_bind, Option.some_bind] at h
  set pc := (if up.power > 0 then up.power else 0) with hpc
  set wc := (if up.workforce > 0 then up.workforce else 0) with hwc
  split_ifs at h with hpow hwork hmem
  · injection h with h1
    injection h1 with hb hr
    subst hb; subst hr
    exact ⟨iff_of_false (by simp) (fun hx => absurd hpow (not_lt.mpr hx.1)),
      fun _ => rfl, hadd⟩
  · injection h with h1
    injection h1 with hb hr
    subst hb; subst hr
    exact ⟨iff_of_false (by simp) (fun hx => absurd hwork (not_lt.mpr hx.2.1)),
      fun hc => absurd hc hpow, hadd⟩
  · injection h with h1
    injection h1 with hb hr
    subst hb; subst hr
    exact ⟨iff_of_false (by simp) (fun hx => absurd hmem hx.2.2),
      fun hc => absurd hc hpow, hadd⟩
  · injection h with h1
    injection h1 with hb hr
    subst hb; subst hr
    exact ⟨iff_of_true rfl ⟨not_lt.mp hpow, not_lt.mp hwork, hmem⟩,
      fun hc => absurd hc hpow, hadd⟩

/-- The usage report of `exCalc2`'s empty system (for the C2 witness). -/
theorem C2_can_add_gates_add_witness :
    (true = true ↔
      (0 ≤ (2000 : ℤ) - (if (500 : ℤ) > 0 then (500 : ℤ) else 0) ∧
       0 ≤ (1000 : ℤ) - (if (100 : ℤ) > 0 then (100 : ℤ) else 0) ∧
       "Consumer" ∉ (dictGet exCalc2.system_upgrades "Sys").getD [])) ∧
    ((2000 : ℤ) - (if (500 : ℤ) > 0 then (500 : ℤ) else 0) < 0 →
      "Can add: 1500 power and 900 workforce will remain" =
        "Insufficient power: need " ++ toString (if (500 : ℤ) > 0 then (500 : ℤ) else 0)
        ++ ", only " ++ toString (2000 : ℤ) ++ " available (deficit: "
        ++ toString |(2000 : ℤ) - (if (500 : ℤ) > 0 then (500 : ℤ) else 0)| ++ ")") ∧
    add_upgrade exCalc2 "Sys" "Consumer" false =
      some (true, if true then installUpgrade exCalc2 "Sys" "Consumer" else exCalc2) :=
  C2_can_add_gates_add exCalc2 "Sys" "Consumer" ⟨"Consumer", 500, 100, "Ratting"⟩
    { base_power := 2000, base_workforce := 1000, power_added := 0, workforce_added := 0
      power_used := 0, workforce_used := 0, power_available := 2000
      workforce_available := 1000, total_power_capacity := 2000
      total_workforce_capacity := 1000, upgrades := [] }
    true "Can add: 1500 power and 900 workforce will remain"
    (by decide) (by decide) (by decide)

/-- C10: applying an unknown preset raises the unknown-preset error only
after the system's ledger has been cleared: the post-call state is exactly
the cleared state, whose entry for the system is the empty list (the
previous contents are not restored — the failure is not atomic). -/
theorem C10_unknown_preset_clears (c : UpgradeCalculator) (s preset : String)
    (h1 : preset ≠ "max_mining") (h2 : preset ≠ "max_ratting")
    (h3 : preset ≠ "balanced") (h4 : preset ≠ "empty") :
    apply_preset c s preset =
      some (.unknownPreset ("Unknown preset: " ++ preset ++
        ". Use max_mining, max_ratting, balanced, or empty"),
        clear_system_upgrades c s) ∧
    dictGet (clear_system_upgrades c s).system_upgrades s = some [] := by
  constructor
  · simp only [apply_preset]
    rw [if_neg (by simp [h1]), if_neg (by simp [h2]), if_neg (by simp [h3]),
      if_neg (by simp [h4])]
  · unfold clear_system_upgrades
    exact dictGet_dictSet _ _ _

/-- Witness for C10 at a concrete unknown preset name. -/
theorem C10_unknown_preset_clears_witness :
    (apply_preset exCalc "Sys" "bogus" =
      some (.unknownPreset ("Unknown preset: " ++ "bogus" ++
        ". Use max_mining, max_ratting, balanced, or empty"),
        clear_system_upgrades exCalc "Sys") ∧
    dictGet (clear_system_upgrades exCalc "Sys").system_upgrades "Sys" = some []) :=
  C10_unknown_preset_clears exCalc "Sys" "bogus"
    (by decide) (by decide) (by decide) (by decide)

theorem not_mem_of_contains_eq_false {l : List String} {a : String}
    (h : l.contains a = false) : a ∉ l := by
  intro hm
  simp [hm] at h

theorem mem_get_valid_connections {g : BridgeGraph} {s : String}
    {excl : List String} {p : String × ℚ}
    (h : p ∈ get_valid_connections g s excl) :
    p.1 ∈ g.nodes ∧ p.1 ≠ s ∧ p.1 ∉ excl ∧
    p.2 = calculate_distance_ly g s p.1 ∧ p.2 ≤ MAX_BRIDGE_RANGE_LY := by
  unfold get_valid_connections at h
  rw [List.mem_mergeSort, List.mem_filterMap] at h
  obtain ⟨other, hmem, hf⟩ := h
  by_cases h1 : (other == s || excl.contains other) = true
  · rw [if_pos h1] at hf; cases hf
  · rw [if_neg h1] at hf
    simp only [Bool.or_eq_true, not_or, Bool.not_eq_true] at h1
    obtain ⟨hns, hne⟩ := h1
    by_cases h2 : (can_bridge_connect g s other).1 = true
    · rw [if_pos h2] at hf
      injection hf with hf
      subst hf
      refine ⟨hmem, ?_, ?_, rfl, of_decide_eq_true h2⟩
      · intro hq
        simp only at hq
        rw [hq] at hns
        simp at hns
      · intro hq
        simp only at hq
        exact not_mem_of_contains_eq_false hne hq
    · rw [if_neg h2] at hf; cases hf

theorem mem_candidateBridges {g : BridgeGraph} {strat : ValidValue → WithTop ℚ}
    {used : List String} {b : PlacedBridge}
    (h : b ∈ candidateBridges g strat used) :
    b.from_ ∉ used ∧ b.to_ ∉ used ∧ b.from_ ≠ b.to_ ∧
    calculate_bridge_value g b.from_ b.to_ = .valid b.value ∧
    b.score = strat b.value := by
  unfold candidateBridges at h
  rw [List.mem_flatMap] at h
  obtain ⟨sys1, _, hb⟩ := h
  by_cases h1 : used.contains sys1 = true
  · rw [if_pos h1] at hb; cases hb
  · rw [if_neg h1] at hb
    rw [List.mem_filterMap] at hb
    obtain ⟨p, hp, hf⟩ := hb
    by_cases h2 : used.contains p.1 = true
    · rw [if_pos h2] at hf; cases hf
    · rw [if_neg h2] at hf
      cases hv : calculate_bridge_value g sys1 p.1 with
      | invalid d r => rw [hv] at hf; cases hf
      | valid v =>
        rw [hv] at hf
        injection hf with hf
        subst hf
        obtain ⟨_, hneq, _, _, _⟩ := mem_get_valid_connections hp
        exact ⟨not_mem_of_contains_eq_false (Bool.eq_false_iff.mpr h1),
          not_mem_of_contains_eq_false (Bool.eq_false_iff.mpr h2),
          hneq.symm, hv, rfl⟩

theorem selectBest_of_some : ∀ (l : List PlacedBridge) (c : PlacedBridge)
    (s : WithTop ℚ), selectBest (some c) s l ≠ none := by
  intro l
  induction l with
  | nil => intro c s h; cases h
  | cons d rest ih =>
    intro c s
    unfold selectBest
    by_cases h : d.score > s
    · rw [if_pos h]; exact ih d d.score
    · rw [if_neg h]; exact ih c s

theorem selectBest_none_forall : ∀ (l : List PlacedBridge) (s : WithTop ℚ),
    selectBest none s l = none → ∀ c ∈ l, c.score ≤ s := by
  intro l
  induction l with
  | nil => intro s _ c hc; cases hc
  | cons d rest ih =>
    intro s h c hc
    unfold selectBest at h
    by_cases hd : d.score > s
    · rw [if_pos hd] at h
      exact absurd h (selectBest_of_some rest d d.score)
    · rw [if_neg hd] at h
      rcases List.mem_cons.mp hc with rfl | hc2
      · exact not_lt.mp hd
      · exact ih s h c hc2

theorem selectBest_mem : ∀ (l : List PlacedBridge) (acc : Option PlacedBridge)
    (s : WithTop ℚ) (b : PlacedBridge),
    selectBest acc s l = some b → b ∈ l ∨ acc = some b := by
  intro l
  induction l with
  | nil => intro acc s b h; right; exact h
  | cons d rest ih =>
    intro acc s b h
    unfold selectBest at h
    by_cases hd : d.score > s
    · rw [if_pos hd] at h
      rcases ih _ _ _ h with hmem | heq
      · exact Or.inl (List.mem_cons_of_mem _ hmem)
      · injection heq with heq
        exact Or.inl (heq ▸ List.mem_cons_self _ _)
    · rw [if_neg hd] at h
      rcases ih _ _ _ h with hmem | heq
      · exact Or.inl (List.mem_cons_of_mem _ hmem)
      · exact Or.inr heq

theorem selectBest_all_le : ∀ (l : List PlacedBridge) (acc : Option PlacedBridge)
    (s : WithTop ℚ), (∀ c ∈ l, c.score ≤ s) → selectBest acc s l = acc := by
  intro l
  induction l with
  | nil => intro acc s _; rfl
  | cons d rest ih =>
    intro acc s h
    unfold selectBest
    rw [if_neg (not_lt.mpr (h d (List.mem_cons_self _ _)))]
    exact ih acc s (fun c hc => h c (List.mem_cons_of_mem _ hc))

/-- The strict `>` update keeps the first candidate attaining the maximum:
whoever comes after with merely an equal score never replaces it. -/
theorem selectBest_first_max : ∀ (l1 : List PlacedBridge) (b : PlacedBridge)
    (l2 : List PlacedBridge) (acc : Option PlacedBridge) (s : WithTop ℚ),
    s < b.score → (∀ c ∈ l1, c.score < b.score) → (∀ c ∈ l2, c.score ≤ b.score) →
    selectBest acc s (l1 ++ b :: l2) = some b := by
  intro l1
  induction l1 with
  | nil =>
    intro b l2 acc s hs _ h2
    rw [List.nil_append]
    unfold selectBest
    rw [if_pos hs]
    exact selectBest_all_le l2 (some b) b.score h2
  | cons d rest ih =>
    intro b l2 acc s hs h1 h2
    rw [List.cons_append]
    unfold selectBest
    by_cases hd : d.score > s
    · rw [if_pos hd]
      exact ih b l2 (some d) d.score (h1 d (List.mem_cons_self _ _))
        (fun c hc => h1 c (List.mem_cons_of_mem _ hc)) h2
    · rw [if_neg hd]
      exact ih b l2 acc s hs (fun c hc => h1 c (List.mem_cons_of_mem _ hc)) h2

theorem greedyGo_invariant (g : BridgeGraph) (strat : ValidValue → WithTop ℚ) :
    ∀ (fuel : ℕ) (placed : List PlacedBridge) (used : List String),
      (∀ b ∈ placed, b.from_ ∈ used ∧ b.to_ ∈ used ∧ b.from_ ≠ b.to_) →
      placed.Pairwise (fun b1 b2 => b1.from_ ≠ b2.from_ ∧ b1.from_ ≠ b2.to_ ∧
        b1.to_ ≠ b2.from_ ∧ b1.to_ ≠ b2.to_) →
      (∀ b ∈ greedyGo g strat fuel placed used, b.from_ ≠ b.to_) ∧
      (greedyGo g strat fuel placed used).Pairwise
        (fun b1 b2 => b1.from_ ≠ b2.from_ ∧ b1.from_ ≠ b2.to_ ∧
          b1.to_ ≠ b2.from_ ∧ b1.to_ ≠ b2.to_) := by
  intro fuel
  induction fuel with
  | zero =>
    intro placed used hinv hpw
    exact ⟨fun b hb => (hinv b hb).2.2, hpw⟩
  | succ n ih =>
    intro placed used hinv hpw
    unfold greedyGo
    cases hsel : selectBest none ((-1 : ℚ) : WithTop ℚ)
        (candidateBridges g strat used) with
    | none => exact ⟨fun b hb => (hinv b hb).2.2, hpw⟩
    | some b =>
      have hbmem : b ∈ candidateBridges g strat used := by
        rcases selectBest_mem _ _ _ _ hsel with hm | habs
        · exact hm
        · cases habs
      obtain ⟨hfu, htu, hft, _, _⟩ := mem_candidateBridges hbmem
      apply ih
      · intro b2 hb2
        rcases List.mem_append.mp hb2 with hold | hnew
        · obtain ⟨c1, c2, c3⟩ := hinv b2 hold
          exact ⟨List.mem_append_left _ c1, List.mem_append_left _ c2, c3⟩
        · rw [List.mem_singleton.mp hnew]
          exact ⟨by simp, by simp, hft⟩
      · rw [List.pairwise_append]
        refine ⟨hpw, List.pairwise_singleton _ _, ?_⟩
        intro b1 hb1 b2 hb2
        rw [List.mem_singleton.mp hb2]
        obtain ⟨c1, c2, _⟩ := hinv b1 hb1
        exact ⟨fun hq => hfu (hq ▸ c1), fun hq => htu (hq ▸ c1),
               fun hq => hfu (hq ▸ c2), fun hq => htu (hq ▸ c2)⟩

theorem greedyGo_length (g : BridgeGraph) (strat : ValidValue → WithTop ℚ) :
    ∀ (fuel : ℕ) (placed : List PlacedBridge) (used : List String),
      (greedyGo g strat fuel placed used).length ≤ placed.length + fuel := by
  intro fuel
  induction fuel with
  | zero => intro placed used; simp [greedyGo]
  | succ n ih =>
    intro placed used
    unfold greedyGo
    cases selectBest none ((-1 : ℚ) : WithTop ℚ) (candidateBridges g strat used) with
    | none => simp
    | some b =>
      simp only []
      have h := ih (placed ++ [b]) (used ++ [b.from_, b.to_])
      rw [List.length_append, List.length_singleton] at h
      omega

theorem greedyGo_eq_append (g : BridgeGraph) (strat : ValidValue → WithTop ℚ) :
    ∀ (fuel : ℕ) (placed : List PlacedBridge) (used : List String),
      greedyGo g strat fuel placed used = placed ++ greedyGo g strat fuel [] used := by
  intro fuel
  induction fuel with
  | zero => intro placed used; simp [greedyGo]
  | succ n ih =>
    intro placed used
    unfold greedyGo
    cases selectBest none ((-1 : ℚ) : WithTop ℚ) (candidateBridges g strat used) with
    | none => simp
    | some b =>
      simp only []
      rw [ih (placed ++ [b]), ih ([] ++ [b])]
      simp

/-- When every score a valid evaluation can produce is non-negative (true of
all four strategies), the loop either spends all its iterations or stops
precisely because no legal candidate pair is left. -/
theorem greedyGo_exhausts (g : BridgeGraph) (strat : ValidValue → WithTop ℚ)
    (hpos : ∀ s1 s2 v, calculate_bridge_value g s1 s2 = .valid v → 0 ≤ strat v) :
    ∀ (fuel : ℕ) (used : List String),
      (greedyGo g strat fuel [] used).length = fuel ∨
      candidateBridges g strat
        (used ++ endpointsOf (greedyGo g strat fuel [] used)) = [] := by
  intro fuel
  induction fuel with
  | zero => intro used; left; rfl
  | succ n ih =>
    intro used
    unfold greedyGo
    cases hsel : selectBest none ((-1 : ℚ) : WithTop ℚ)
        (candidateBridges g strat used) with
    | none =>
      right
      have hall := selectBest_none_forall _ _ hsel
      have hempty : candidateBridges g strat used = [] := by
        rcases hq : candidateBridges g strat used with _ | ⟨c, rest⟩
        · rfl
        · exfalso
          have hc : c ∈ candidateBridges g strat used := by
            rw [hq]; exact List.mem_cons_self _ _
          obtain ⟨_, _, _, hv, hsc⟩ := mem_candidateBridges hc
          have h0 : (0 : WithTop ℚ) ≤ c.score := by
            rw [hsc]; exact hpos _ _ _ hv
          have hle : c.score ≤ ((-1 : ℚ) : WithTop ℚ) := hall c hc
          have hcontra : (0 : WithTop ℚ) ≤ ((-1 : ℚ) : WithTop ℚ) :=
            le_trans h0 hle
          rw [← WithTop.coe_zero, WithTop.coe_le_coe] at hcontra
          norm_num at hcontra
      simpa [endpointsOf] using hempty
    | some b =>
      simp only []
      rw [greedyGo_eq_append]
      rcases ih (used ++ [b.from_, b.to_]) with hlen | hempty
      · left; simp [hlen]
      · right
        simpa [endpointsOf, List.append_assoc] using hempty

/-- Any valid evaluation scores non-negatively under the jump_savings
strategy (`jump_savings` is `max(0, ...)` or the infinity sentinel). -/
theorem scoreJumpSavings_nonneg (g : BridgeGraph) (s1 s2 : String)
    (v : ValidValue) (h : calculate_bridge_value g s1 s2 = .valid v) :
    0 ≤ scoreJumpSavings v := by
  simp only [calculate_bridge_value] at h
  by_cases hc : (can_bridge_connect g s1 s2).1 = true
  · rw [hc] at h
    simp only [Bool.not_true, Bool.false_eq_true, if_false] at h
    injection h with h
    subst h
    simp only [scoreJumpSavings]
    cases hsp : shortest_path_length g s1 s2 with
    | none => simp [hsp, Option.elim]
    | some m =>
      simp only [hsp, Option.elim]
      rw [WithTop.map_coe, ← WithTop.coe_zero, WithTop.coe_le_coe]
      exact_mod_cast le_max_left 0 ((m : ℤ) - 1)
  · rw [Bool.eq_false_iff.mpr hc] at h
    simp only [Bool.not_false, if_true] at h
    cases h

/-- C3: every bridge list produced by the greedy optimizer (any snapshot,
bound and strategy) has two distinct endpoints per bridge and no system
appearing in two different bridges; and `add_bridge` rejects — success
false, bridge list untouched — whenever either requested endpoint already
appears in an existing bridge. -/
theorem C3_exclusivity (g : BridgeGraph) (n : ℕ) (strat : ValidValue → WithTop ℚ) :
    ((∀ b ∈ optimize_bridge_placement_greedy g n strat, b.from_ ≠ b.to_) ∧
     (optimize_bridge_placement_greedy g n strat).Pairwise
       (fun b1 b2 => b1.from_ ≠ b2.from_ ∧ b1.from_ ≠ b2.to_ ∧
         b1.to_ ≠ b2.from_ ∧ b1.to_ ≠ b2.to_)) ∧
    ∀ (m : BridgeManager) (s1 s2 : String) (active validate : Bool),
      s1 ∈ get_used_systems m ∨ s2 ∈ get_used_systems m →
      (add_bridge m s1 s2 active validate).1.1 = false ∧
      (add_bridge m s1 s2 active validate).2 = m := by
  constructor
  · exact greedyGo_invariant g strat n [] [] (fun b hb => absurd hb
      (List.not_mem_nil b)) List.Pairwise.nil
  · intro m s1 s2 active validate hused
    unfold add_bridge
    by_cases hb : has_bridge m s1 s2 = true
    · rw [if_pos hb]; exact ⟨rfl, rfl⟩
    · rw [if_neg hb]
      by_cases h1 : (get_used_systems m).contains s1 = true
      · rw [if_pos h1]; exact ⟨rfl, rfl⟩
      · rw [if_neg h1]
        by_cases h2 : (get_used_systems m).contains s2 = true
        · rw [if_pos h2]; exact ⟨rfl, rfl⟩
        · exfalso
          rcases hused with hu | hu
          · exact not_mem_of_contains_eq_false (Bool.eq_false_iff.mpr h1) hu
          · exact not_mem_of_contains_eq_false (Bool.eq_false_iff.mpr h2) hu

/-- Witness for C3's add_bridge rejection at a concrete used endpoint. -/
theorem C3_exclusivity_witness :
    ("A" ∈ get_used_systems mgrUsed ∨ "C" ∈ get_used_systems mgrUsed) ∧
    (add_bridge mgrUsed "A" "C" true true).1.1 = false ∧
    (add_bridge mgrUsed "A" "C" true true).2 = mgrUsed :=
  ⟨Or.inl (by decide),
   (C3_exclusivity exGraph6 1 scoreCoverage).2 mgrUsed "A" "C" true true
     (Or.inl (by decide))⟩

/-- C5: the optimizer is a deterministic function of its parameters — two
runs on a fixed snapshot with identical arguments coincide (the embedding is
pure, as is the Python loop: fixed node enumeration, no randomness) — and
the running maximum of an iteration is the first candidate in enumeration
order attaining the maximal score, because the comparison is a strict
greater-than. -/
theorem C5_deterministic (g : BridgeGraph) (n : ℕ)
    (strat : ValidValue → WithTop ℚ) :
    optimize_bridge_placement_greedy g n strat =
      optimize_bridge_placement_greedy g n strat ∧
    ∀ (l1 l2 : List PlacedBridge) (b : PlacedBridge),
      ((-1 : ℚ) : WithTop ℚ) < b.score →
      (∀ c ∈ l1, c.score < b.score) →
      (∀ c ∈ l2, c.score ≤ b.score) →
      selectBest none ((-1 : ℚ) : WithTop ℚ) (l1 ++ b :: l2) = some b :=
  ⟨rfl, fun l1 l2 b hs h1 h2 => selectBest_first_max l1 b l2 none _ hs h1 h2⟩

/-- Witness for C5: the first of two equal-scoring candidates wins. -/
theorem C5_deterministic_witness :
    optimize_bridge_placement_greedy exGraph6 10 scoreJumpSavings =
      optimize_bridge_placement_greedy exGraph6 10 scoreJumpSavings ∧
    selectBest none ((-1 : ℚ) : WithTop ℚ) ([pbLow] ++ pbHigh :: [pbTie]) =
      some pbHigh :=
  ⟨(C5_deterministic exGraph6 10 scoreJumpSavings).1,
   (C5_deterministic exGraph6 10 scoreJumpSavings).2 [pbLow] [pbTie] pbHigh
     (by decide) (by decide) (by decide)⟩

/-- C6: the optimizer returns at most max_bridges bridges; when it returns
fewer it stopped early with no legal pair (in range, both endpoints unused)
remaining; and on the 8-system network with exactly 4 legal disjoint pairs,
requesting 10 bridges returns exactly 4. -/
theorem C6_bounded_and_exhaustive (g : BridgeGraph) (n : ℕ)
    (strat : ValidValue → WithTop ℚ)
    (hpos : ∀ s1 s2 v, calculate_bridge_value g s1 s2 = .valid v → 0 ≤ strat v) :
    (optimize_bridge_placement_greedy g n strat).length ≤ n ∧
    ((optimize_bridge_placement_greedy g n strat).length < n →
      candidateBridges g strat
        (endpointsOf (optimize_bridge_placement_greedy g n strat)) = []) ∧
    (optimize_bridge_placement_greedy exGraph6 10 scoreJumpSavings).length = 4 := by
  refine ⟨?_, ?_, ?_⟩
  · have h := greedyGo_length g strat n [] []
    simpa using h
  · intro hlt
    rcases greedyGo_exhausts g strat hpos n [] with hlen | hempty
    · exact absurd hlen (Nat.ne_of_lt hlt)
    · simpa using hempty
  · with_unfolding_all decide

/-- Witness for C6 at the 4-pair network, with the strategy's score
non-negativity discharged. -/
theorem C6_bounded_and_exhaustive_witness :
    (optimize_bridge_placement_greedy exGraph6 10 scoreJumpSavings).length ≤ 10 ∧
    ((optimize_bridge_placement_greedy exGraph6 10 scoreJumpSavings).length < 10 →
      candidateBridges exGraph6 scoreJumpSavings
        (endpointsOf (optimize_bridge_placement_greedy exGraph6 10 scoreJumpSavings)) = []) ∧
    (optimize_bridge_placement_greedy exGraph6 10 scoreJumpSavings).length = 4 :=
  C6_bounded_and_exhaustive exGraph6 10 scoreJumpSavings
    (fun s1 s2 v h => scoreJumpSavings_nonneg exGraph6 s1 s2 v h)

/-- C4: the evaluator validates the range first: beyond the 5-unit maximum
it returns the invalid result carrying the actual distance (the invalid
shape has no jump metrics at all); within range it returns a valid result
whose jump_savings is max(0, current_jumps - 1) — top on the unreachable
sentinel — hence never negative; and on the spec's example (distance 3.2,
stargate path length 4) it reports valid with jump_savings 3. -/
theorem C4_range_and_savings (g : BridgeGraph) (s1 s2 : String) :
    (MAX_BRIDGE_RANGE_LY < calculate_distance_ly g s1 s2 →
      calculate_bridge_value g s1 s2 =
        .invalid (calculate_distance_ly g s1 s2) "Distance exceeds 5 LY limit") ∧
    (calculate_distance_ly g s1 s2 ≤ MAX_BRIDGE_RANGE_LY →
      ∃ v : ValidValue, calculate_bridge_value g s1 s2 = .valid v ∧
        v.distance_ly = calculate_distance_ly g s1 s2 ∧
        v.current_jumps = (shortest_path_length g s1 s2).elim ⊤
          (fun m => ((m : ℤ) : WithTop ℤ)) ∧
        v.jump_savings = (shortest_path_length g s1 s2).elim ⊤
          (fun m => ((max 0 ((m : ℤ) - 1) : ℤ) : WithTop ℤ)) ∧
        0 ≤ v.jump_savings) ∧
    (calculate_bridge_value exGraph4 "A" "B" = .valid exValue4 ∧
      exValue4.distance_ly = 3.2 ∧
      exValue4.current_jumps = ((4 : ℤ) : WithTop ℤ) ∧
      exValue4.jump_savings = ((3 : ℤ) : WithTop ℤ)) := by
  refine ⟨?_, ?_, ?_⟩
  · intro h
    have hc : (can_bridge_connect g s1 s2).1 = false :=
      decide_eq_false (not_le.mpr h)
    simp only [calculate_bridge_value, hc, Bool.not_false, if_true]
    rfl
  · intro h
    have hc : (can_bridge_connect g s1 s2).1 = true := decide_eq_true h
    simp only [calculate_bridge_value, hc, Bool.not_true, Bool.false_eq_true, if_false]
    refine ⟨_, rfl, rfl, rfl, rfl, ?_⟩
    cases hsp : shortest_path_length g s1 s2 with
    | none => simp [hsp, Option.elim]
    | some m =>
      simp only [hsp, Option.elim]
      rw [← WithTop.coe_zero, WithTop.coe_le_coe]
      exact le_max_left 0 ((m : ℤ) - 1)
  · exact ⟨by with_unfolding_all decide,
      by norm_num [exValue4, Rat.mkRat_eq_div], rfl, rfl⟩

/-- Witness for C4 at an out-of-range pair (distance 6). -/
theorem C4_range_and_savings_witness :
    calculate_bridge_value exGraphFar "A" "B" =
      .invalid (calculate_distance_ly exGraphFar "A" "B")
        "Distance exceeds 5 LY limit" :=
  (C4_range_and_savings exGraphFar "A" "B").1 (by decide)

/-- C9: an in-range pair with no stargate path is not rejected: the
evaluation is valid and carries the infinity sentinel (top) as both
current_jumps and jump_savings, and under the jump_savings strategy such a
pair scores strictly above every evaluation with a finite jump saving. -/
theorem C9_unreachable_sentinel (g : BridgeGraph) (s1 s2 : String)
    (v : ValidValue)
    (hr : calculate_distance_ly g s1 s2 ≤ MAX_BRIDGE_RANGE_LY)
    (hnp : shortest_path_length g s1 s2 = none)
    (hv : calculate_bridge_value g s1 s2 = .valid v) :
    v.current_jumps = ⊤ ∧ v.jump_savings = ⊤ ∧ scoreJumpSavings v = ⊤ ∧
    ∀ (w : ValidValue) (m : ℤ), w.jump_savings = ((m : ℤ) : WithTop ℤ) →
      scoreJumpSavings w < scoreJumpSavings v := by
  have hc : (can_bridge_connect g s1 s2).1 = true := decide_eq_true hr
  simp only [calculate_bridge_value, hc, Bool.not_true, Bool.false_eq_true,
    if_false] at hv
  injection hv with hv
  subst hv
  refine ⟨by simp [hnp, Option.elim], by simp [hnp, Option.elim], ?_, ?_⟩
  · simp [scoreJumpSavings, hnp, Option.elim]
  · intro w m hw
    rw [scoreJumpSavings, hw, WithTop.map_coe]
    simp only [scoreJumpSavings, hnp, Option.elim, WithTop.map_top]
    exact WithTop.coe_lt_top _

/-- Witness for C9 at the concrete in-range, pathless pair. -/
theorem C9_unreachable_sentinel_witness :
    exValue9.current_jumps = ⊤ ∧ exValue9.jump_savings = ⊤ ∧
    scoreJumpSavings exValue9 = ⊤ ∧
    scoreJumpSavings vPlain < scoreJumpSavings exValue9 :=
  have h := C9_unreachable_sentinel exGraph9 "A" "B" exValue9
    (by decide) (by decide) (by with_unfolding_all decide)
  ⟨h.1, h.2.1, h.2.2.1, h.2.2.2 vPlain 0 rfl⟩

/-- C7 counterexample: with validate=False, `add_bridge` commits a bridge
whose stored distance is the rounded value 6.33 — both different from the
live spatial-model distance 19/3 and beyond the 5-unit maximum range,
refuting the claim that every committed bridge stores the exact live
distance and never exceeds the range. -/
theorem C7_counterexample :
    (add_bridge mgr7 "A" "B" true false).1.1 = true ∧
    (add_bridge mgr7 "A" "B" true false).2.bridges =
      [⟨"A", "B", mkRat 633 100, true⟩] ∧
    calculate_distance_ly mgr7.graph "A" "B" = mkRat 19 3 ∧
    ¬(mkRat 633 100 ≤ MAX_BRIDGE_RANGE_LY) ∧
    mkRat 633 100 ≠ mkRat 19 3 := by
  with_unfolding_all decide

/-- C7 amended: a successful `add_bridge` appends a record whose stored
distance is the live spatial-model distance rounded to two decimal places;
when validate=True that stored distance cannot exceed the 5-unit maximum,
while validate=False skips the range check entirely (so the bound holds
only for validated adds — see the counterexample). -/
theorem C7_amended_stored_distance (m : BridgeManager) (s1 s2 : String)
    (active validate : Bool)
    (h : (add_bridge m s1 s2 active validate).1.1 = true) :
    (add_bridge m s1 s2 active validate).2.bridges = m.bridges ++
      [⟨s1, s2, round2 (calculate_distance_ly m.graph s1 s2), active⟩] ∧
    (validate = true →
      round2 (calculate_distance_ly m.graph s1 s2) ≤ MAX_BRIDGE_RANGE_LY) := by
  unfold add_bridge at h ⊢
  by_cases hb : has_bridge m s1 s2 = true
  · rw [if_pos hb] at h; cases h
  · rw [if_neg hb] at h ⊢
    by_cases h1 : (get_used_systems m).contains s1 = true
    · rw [if_pos h1] at h; cases h
    · rw [if_neg h1] at h ⊢
      by_cases h2 : (get_used_systems m).contains s2 = true
      · rw [if_pos h2] at h; cases h
      · rw [if_neg h2] at h ⊢
        by_cases hv : (validate && !(can_bridge_connect m.graph s1 s2).1) = true
        · rw [if_pos hv] at h; cases h
        · rw [if_neg hv] at h ⊢
          refine ⟨rfl, ?_⟩
          intro hval
          have hc1 : (can_bridge_connect m.graph s1 s2).1 = true := by
            rcases Bool.and_eq_false_iff.mp (Bool.eq_false_iff.mpr hv) with hx | hx
            · rw [hval] at hx; cases hx
            · simpa using hx
          have hd : calculate_distance_ly m.graph s1 s2 ≤ 5 := of_decide_eq_true hc1
          show (((round (calculate_distance_ly m.graph s1 s2 * 100) : ℤ) : ℚ) / 100 ≤ 5)
          rw [div_le_iff (by norm_num : (0 : ℚ) < 100)]
          have h500 : round (calculate_distance_ly m.graph s1 s2 * 100) ≤
              round (((500 : ℤ) : ℚ)) := by
            rw [round_eq, round_eq]
            apply Int.floor_le_floor
            push_cast
            linarith
          rw [round_intCast] at h500
          calc ((round (calculate_distance_ly m.graph s1 s2 * 100) : ℤ) : ℚ)
              ≤ ((500 : ℤ) : ℚ) := by exact_mod_cast h500
            _ = 5 * 100 := by norm_num

/-- Witness for C7's amended statement at a validated in-range add. -/
theorem C7_amended_stored_distance_witness :
    (add_bridge mgrInRange "A" "B" true true).2.bridges = mgrInRange.bridges ++
      [⟨"A", "B", round2 (calculate_distance_ly mgrInRange.graph "A" "B"), true⟩] ∧
    (true = true →
      round2 (calculate_distance_ly mgrInRange.graph "A" "B") ≤ MAX_BRIDGE_RANGE_LY) :=
  C7_amended_stored_distance mgrInRange "A" "B" true true
    (by with_unfolding_all decide)

/-- C8 (evidence for the code bug): the k=10 sampled betweenness value is a
function of the drawn source sample — on an 11-system snapshot, two
admissible 10-element source samples give different betweenness for the same
system. The code draws that sample with networkx's unseeded random number
generator, so the reported value is not determined by the graph alone. -/
theorem C8_betweenness_sample_dependent :
    sampleNoA.length = 10 ∧ sampleNoD.length = 10 ∧
    (∀ x ∈ sampleNoA, x ∈ pathGraph.nodes) ∧
    (∀ x ∈ sampleNoD, x ∈ pathGraph.nodes) ∧
    sampleNoA.Nodup ∧ sampleNoD.Nodup ∧
    betweennessSampled pathGraph sampleNoA "B" ≠
      betweennessSampled pathGraph sampleNoD "B" := by
  with_unfolding_all decide

end EveRP
